import Mathlib

/-
  Verification of the MetaKit type-sequence algebra and tuple engine.

  Shallow embedding conventions:
  - A C++ type-level sequence (type_list of Ts) and a tuple value (tuple of
    Ts) are both modelled as a Lean List over an abstract element type.  For
    the type-sequence algebra the list elements stand for type descriptors;
    for the tuple engine they stand for the stored element values.
  - Template metafunctions and calls that can fail to instantiate (an
    ill-formed specialization or expression is a build-time rejection in
    C++) are modelled as Option-valued functions: none means the
    instantiation is ill-formed, never a runtime error value.
  - The element access get_impl recurses through pop_front_t, whose only
    specialization rebinds every list template to type_list; the embedding
    tracks which template the current level type is, so that the base-case
    cast is well-formed exactly where it is in the source.
  - Copy and move constructions of elements are counted explicitly where a
    claim is about construction counts: the counted variants return a pair
    of the resulting value and the number of element constructions
    performed, inside the Option that records well-formedness.
-/

namespace Metakit

/-- Model of front (type_list.h): front of a non-empty sequence is its first
element; there is no specialization for the empty sequence, so front of an
empty sequence is ill-formed, modelled as none. -/
def front_tl : List α → Option α
  | [] => none
  | x :: _ => some x

/-- Model of pop_front (type_list.h) applied to a type_list: drops the first
element of a non-empty sequence; no specialization matches the empty
sequence, modelled as none.  On a type_list the rebinding of the result to
type_list is the identity; the rebinding only matters for the tuple engine
and is modelled there. -/
def pop_front_tl : List α → Option (List α)
  | [] => none
  | _ :: xs => some xs

/-- Model of back (type_list.h): the primary template recurses through
pop_front, the single-element specialization returns that element.  On the
empty sequence pop_front is ill-formed, modelled as none. -/
def back_tl : List α → Option α
  | [] => none
  | [t0] => some t0
  | _ :: t1 :: rest => back_tl (t1 :: rest)

/-- Model of push_back (type_list.h): appends a type at the back of the
parameter pack; defined for every sequence, including the empty one. -/
def push_back_tl (L : List α) (t : α) : List α := L ++ [t]

/-- Model of pop_back (type_list.h): folds from the front while accumulating
the result sequence RET_LIST via push_back; the single-element specialization
returns the accumulator.  No specialization matches the empty sequence,
modelled as none. -/
def pop_back_tl : List α → List α → Option (List α)
  | [], _ => none
  | [_], acc => some acc
  | t0 :: t1 :: rest, acc => pop_back_tl (t1 :: rest) (push_back_tl acc t0)

/-- Model of at (type_list.h) on a type_list: index 0 is front, index i+1
recurses on pop_front with i.  front and pop_front of the empty sequence are
ill-formed, so any out-of-range index is rejected, modelled as none; on a
type_list every in-range index resolves, since the pop_front rebinding is
the identity there. -/
def at_tl : List α → Nat → Option α
  | L, 0 => front_tl L
  | L, i + 1 => (pop_front_tl L).bind (fun L2 => at_tl L2 i)

/-- Model of if_ (type_list.h / helper_.h): compile-time branch on a boolean
condition.  In the source both candidate results are named in the base
specifier of any, so both are instantiated; the value selected is THEN when
the condition holds and ELSE otherwise. -/
def if_ (condition : Bool) (t e : γ) : γ := if condition then t else e

/-- Model of any (type_list.h): the empty-sequence specialization is
false_type and does not mention the predicate; the non-empty case selects via
if_ between true_type and the recursive any on pop_front.  The predicate is
Option-valued because instantiating PREDICATE on an element can itself be
ill-formed; both if_ branch arguments appear in the base specifier, so the
recursive instantiation is forced regardless of the condition. -/
def anyTL (P : α → Option Bool) : List α → Option Bool
  | [] => some false
  | t0 :: rest =>
    (P t0).bind (fun b => (anyTL P rest).bind (fun r => some (if_ b true r)))

/-- Model of is_same_v (type_list.h): true exactly when the two type
descriptors are the same type. -/
def is_same_v [DecidableEq α] (t1 t2 : α) : Bool := decide (t1 = t2)

/-- Model of is_same_pred::predicate (type_list.h lines 327-332).  The nested
template is declared as struct predicate : is_same<T1, T2>::value.  The name
is_same<T1,T2>::value denotes the static bool data member of the trait, not a
type, so the base specifier does not name a class: instantiating
predicate<T2> is ill-formed for every T2.  An ill-formed instantiation is
modelled as none. -/
def is_same_pred_predicate (_t1 _t2 : α) : Option Bool := none

/-- Model of contains_type_v (type_list.h): any applied to the nested
predicate of is_same_pred for the searched type. -/
def contains_type_v (search : α) (list : List α) : Option Bool :=
  anyTL (is_same_pred_predicate search) list

/-- Which list template the level type of the get_impl recursion currently
is: the original tuple, or the type_list produced by the pop_front
rebinding. -/
inductive SeqKind
  | tupleK
  | typeListK
deriving DecidableEq

/-- Faithful model of get_impl (tuple.h lines 102-137).  The recursive case
inherits from get_impl over pop_front_t of the current level type, but the
only pop_front specialization (type_list.h lines 191-192) rebinds every list
template to type_list, so after one recursion step the level type is a
type_list, never again a tuple.  The base case performs a static_cast of the
tuple object to the level type and reads its data member: well-formed when
the level type is the tuple itself (index 0), ill-formed when the level type
is a type_list, which is not a base class of any tuple and has no data
member.  front_t and pop_front_t of an empty level type are ill-formed, so
out-of-range indices are rejected as well.  An ill-formed call is none. -/
def get_impl_m : Nat → SeqKind → List α → Option α
  | _, _, [] => none
  | 0, SeqKind.tupleK, x :: _ => some x
  | 0, SeqKind.typeListK, _ :: _ => none
  | i + 1, _, _ :: xs => get_impl_m i SeqKind.typeListK xs

/-- Model of get (tuple.h lines 304-308) on a tuple expression: the level
type starts as the tuple type itself, so only index 0 reaches a well-formed
base case; every index of one or more lands on a type_list level type and is
ill-formed, as is every out-of-range index. -/
def get_m (i : Nat) (t : List α) : Option α := get_impl_m i SeqKind.tupleK t

/-- Result category of the four-way dispatch in get_impl at index 0: whether
the returned access is an lvalue reference and whether it is const
qualified. -/
structure AccessResult where
  isLvalRef : Bool
  isConst : Bool
deriving DecidableEq

/-- Model of the four if-constexpr branches of get_impl at the base case
(tuple.h lines 128-135), dispatching on whether the access expression is an
lvalue and whether it is const: const lvalue access returns a const lvalue
reference, mutable lvalue access a mutable lvalue reference, const rvalue
access a const rvalue reference, mutable rvalue access a mutable rvalue
reference. -/
def get_access (is_lval is_constant : Bool) : AccessResult :=
  if is_lval && is_constant then ⟨true, true⟩
  else if is_lval && !is_constant then ⟨true, false⟩
  else if !is_lval && is_constant then ⟨false, true⟩
  else ⟨false, false⟩

/-- Positional replacement expressing the effect of a write through an
element alias: the data member of the level-i sub-aggregate is replaced and
nothing else changes.  Used only under the well-formedness guard of
assign_through_get. -/
def set_elem (i : Nat) (v : α) : List α → List α
  | [] => []
  | x :: xs =>
    match i with
    | 0 => v :: xs
    | j + 1 => x :: set_elem j v xs

/-- Faithful model of the assignment get(i,t) = v on a mutable named tuple:
the assignment expression is well-formed exactly when the access expression
get(i,t) is, which in this source means index 0 on a non-empty tuple; where
it is well-formed, the returned alias refers to the data member at position
i, so the write replaces exactly that element. -/
def assign_through_get (i : Nat) (v : α) (t : List α) : Option (List α) :=
  match get_m i t with
  | some _ => some (set_elem i v t)
  | none => none

/-- Model of the recursive tuple constructor (tuple.h lines 28-42): each
level consumes exactly one argument for its data member and forwards the rest
to the base.  The empty tuple has only the zero-argument default constructor,
and the non-empty specialization has no default constructor, so an
argument-count mismatch in either direction fails to resolve, modelled as
none.  The first list carries the declared element types, the second the
constructor arguments. -/
def tuple_construct : List α → List β → Option (List β)
  | [], [] => some []
  | _ :: tys, a :: args => (tuple_construct tys args).map (fun r => a :: r)
  | [], _ :: _ => none
  | _ :: _, [] => none

/-- Model of tuple_element (tuple.h lines 394-424): index 0 on a non-empty
tuple yields the head type, index i+1 recurses with i on the tail.  The
recursion is written directly on the element pack of the tuple, without
pop_front and without casts, so it is well-formed on every in-range index.
No specialization matches the empty tuple, so an out-of-range index leaves
the primary template undefined, modelled as none. -/
def tuple_element : Nat → List α → Option α
  | 0, head :: _ => some head
  | i + 1, _ :: tail => tuple_element i tail
  | _, [] => none

/-- Model of forward_as_tuple (tuple.h lines 180-184): builds a tuple whose
storage is rvalue-reference aliases of the arguments; no element is
constructed, so the model is the argument list itself. -/
def forward_as_tuple (args : List α) : List α := args

/-- Expansion get of 0 .. get of size-1 over a tuple or view, as generated by
the index sequences of make_tuple_from_fwd_tuple, concat_with_fwd_tuple and
cat_tuple_content: the expansion is well-formed only if every single get in
it is, which in this source requires the expanded length to be at most
one. -/
def view_reads (t : List α) : Option (List α) :=
  (List.range t.length).mapM (fun i => get_m i t)

/-- Model of make_tuple_from_fwd_tuple (tuple.h lines 156-169): expands the
index sequence 0..size-1 over the forwarding view and builds an owning tuple
from the referenced elements; ill-formed whenever any of those gets is. -/
def make_tuple_from_fwd_tuple_m (fwd : List α) : Option (List α) :=
  view_reads fwd

/-- Construction counter for materialization: building the owning tuple
copy-or-move-constructs each referenced element exactly once, accumulated by
the same structural recursion as the tuple constructor. -/
def constructAll : List α → List α × Nat
  | [] => ([], 0)
  | x :: xs =>
    let r := constructAll xs
    (x :: r.1, r.2 + 1)

/-- Counted model of make_tuple_from_fwd_tuple: the only place in the
concatenation engine where elements are constructed; the forwarding views
hold references and construct nothing. -/
def make_tuple_from_fwd_tuple_mc (fwd : List α) : Option (List α × Nat) :=
  (view_reads fwd).map constructAll

/-- Model of concat_with_fwd_tuple (tuple.h lines 206-222): forwards every
element of the accumulated view followed by every element of the next tuple
into a fresh forwarding view, via one get per index on each source;
ill-formed whenever either source has length two or more. -/
def concat_with_fwd_tuple_m (fwd t : List α) : Option (List α) :=
  (view_reads fwd).bind (fun a =>
    (view_reads t).map (fun b => forward_as_tuple (a ++ b)))

/-- Model of tuple_cat_impl::f (tuple.h lines 231-259): the variadic overload
folds the remaining tuples left to right through concat_with_fwd_tuple, and
the unary overload materializes the accumulated view via
make_tuple_from_fwd_tuple; the whole fold is well-formed only if every step
is. -/
def tuple_cat_impl_fm : List α → List (List α) → Option (List α)
  | rest, [] => make_tuple_from_fwd_tuple_m rest
  | rest, t :: ts =>
    (concat_with_fwd_tuple_m rest t).bind (fun v => tuple_cat_impl_fm v ts)

/-- Model of tuple_cat (tuple.h lines 320-324) for a call with at least one
argument, ignoring value categories (only relevant for the unary overload,
modelled in tuple_cat_call_m): the first argument seeds the fold, the
remaining tuples are folded in left to right. -/
def tuple_cat_m (t : List α) (ts : List (List α)) : Option (List α) :=
  tuple_cat_impl_fm t ts

/-- Counted model of the tuple_cat_impl fold: the intermediate forwarding
views perform zero element constructions and the final materialization
performs one per element of the accumulated view, where the fold is
well-formed at all. -/
def tuple_cat_impl_cm : List α → List (List α) → Option (List α × Nat)
  | rest, [] => make_tuple_from_fwd_tuple_mc rest
  | rest, t :: ts =>
    (concat_with_fwd_tuple_m rest t).bind (fun v => tuple_cat_impl_cm v ts)

/-- Value category of a tuple argument expression at the call site of
tuple_cat: named mutable, named const, temporary mutable, temporary const. -/
inductive VCat
  | lval
  | clval
  | rval
  | crval
deriving DecidableEq

/-- Model of a top-level call tuple_cat(t1, ..., tk) with the value category
of each argument expression (tuple.h lines 244-258 and 320-324).  With zero
arguments no overload of tuple_cat_impl::f is viable, a build-time rejection.
With one argument the unary overload deduces fwd_tuple from the forwarded
argument and instantiates tuple_size_v on it without remove_cvrf_t: for a
named or const argument fwd_tuple is a reference or const-qualified type, on
which tuple_size has no specialization, so the call is ill-formed; only a
mutable temporary reaches materialization.  With two or more arguments the
variadic overload applies remove_cvrf_t before taking sizes, so every value
category reaches the left-to-right fold; the fold itself is then well-formed
only while every index expansion it performs stays within length one. -/
def tuple_cat_call_m : List (VCat × List α) → Option (List α × Nat)
  | [] => none
  | [(c, t)] =>
    match c with
    | VCat.rval => make_tuple_from_fwd_tuple_mc t
    | _ => none
  | (_, t1) :: t2 :: rest => tuple_cat_impl_cm t1 ((t2 :: rest).map Prod.snd)

/-- Model of transform (tuple.h lines 287-291 and 336-341): expands the index
sequence 0..size-1 and applies the function to the get at each index, left
to right; ill-formed whenever any of those gets is, hence for every tuple of
length two or more. -/
def transform_m (t : List α) (f : α → β) : Option (List β) :=
  (List.range t.length).mapM (fun i => (get_m i t).map f)

/-- The element access is rejected on every out-of-range index, whatever the
current level template is. -/
theorem get_impl_m_out_of_range {α : Type} :
    ∀ (i : Nat) (k : SeqKind) (t : List α), t.length ≤ i →
      get_impl_m i k t = none
  | i, k, [], _ => by cases i <;> cases k <;> rfl
  | 0, _, x :: xs, h => by simp at h
  | i + 1, k, x :: xs, h => by
    have h2 : get_impl_m (i + 1) k (x :: xs) =
        get_impl_m i SeqKind.typeListK xs := by cases k <;> rfl
    rw [h2]
    exact get_impl_m_out_of_range i SeqKind.typeListK xs (by simpa using h)

/-- The sequence-side indexed lookup is rejected exactly on out-of-range
indices. -/
theorem at_tl_none_iff : ∀ (i : Nat) (L : List α),
    at_tl L i = none ↔ L.length ≤ i
  | 0, [] => by simp [at_tl, front_tl]
  | 0, _ :: _ => by simp [at_tl, front_tl]
  | i + 1, [] => by simp [at_tl, pop_front_tl]
  | i + 1, _ :: xs => by
    simpa [at_tl, pop_front_tl] using at_tl_none_iff i xs

/-- On a non-empty sequence, back returns the last element. -/
theorem back_tl_getLast : ∀ (L : List α) (h : L ≠ []),
    back_tl L = some (L.getLast h)
  | [t0], _ => rfl
  | t0 :: t1 :: rest, _ => by
    have h1 : back_tl (t0 :: t1 :: rest) = back_tl (t1 :: rest) := rfl
    rw [h1, back_tl_getLast (t1 :: rest) (by simp)]
    exact congrArg some (List.getLast_cons (by simp)).symm

/-- On a non-empty sequence, the pop_back fold returns the accumulator
followed by all but the last element. -/
theorem pop_back_tl_eq : ∀ (L : List α), L ≠ [] → ∀ (acc : List α),
    pop_back_tl L acc = some (acc ++ L.dropLast)
  | [t0], _, acc => by simp [pop_back_tl]
  | t0 :: t1 :: rest, _, acc => by
    have h1 : pop_back_tl (t0 :: t1 :: rest) acc =
        pop_back_tl (t1 :: rest) (push_back_tl acc t0) := rfl
    rw [h1, pop_back_tl_eq (t1 :: rest) (by simp) (push_back_tl acc t0)]
    simp [push_back_tl]

/-- back is rejected exactly on the empty sequence. -/
theorem back_tl_none_iff (L : List α) : back_tl L = none ↔ L = [] := by
  cases h : L with
  | nil => simp [back_tl]
  | cons x xs => simp [back_tl_getLast (x :: xs) (by simp)]

/-- pop_back is rejected exactly on the empty sequence. -/
theorem pop_back_tl_none_iff (L : List α) :
    pop_back_tl L [] = none ↔ L = [] := by
  cases h : L with
  | nil => simp [pop_back_tl]
  | cons x xs => simp [pop_back_tl_eq (x :: xs) (by simp) []]

/-- Tuple construction resolves exactly when the argument count matches the
declared element count. -/
theorem tuple_construct_isSome : ∀ (tys : List α) (args : List β),
    (tuple_construct tys args).isSome ↔ tys.length = args.length
  | [], [] => by simp [tuple_construct]
  | [], _ :: _ => by simp [tuple_construct]
  | _ :: _, [] => by simp [tuple_construct]
  | _ :: tys, a :: args => by
    simpa [tuple_construct] using tuple_construct_isSome tys args

/-- Claim C1: the claim states that tuple_cat(A,B) is a tuple of length a+b
whose element at index i below a equals get(i,A) and at index a <= i < a+b
equals get(i-a,B), for all tuples A and B.  The code contradicts it: the
materialization of the concatenated view expands get at index 1 whenever
a+b >= 2, and get at any index of one or more is ill-formed, because
get_impl recurses through pop_front_t, whose only specialization rebinds the
tuple to type_list, so the base-case cast to the level type fails; already
the one-plus-one concatenation does not compile.  Only calls with total
length at most one compile, and there the result does match the claim. -/
theorem tuple_cat_ill_formed_beyond_one :
    tuple_cat_m [(1 : Nat)] [[2]] = none
    ∧ get_m 1 [(1 : Nat), 2] = none
    ∧ tuple_cat_m ([] : List Nat) [[5]] = some [5]
    ∧ get_m 0 [(5 : Nat)] = some 5 := by decide

/-- Claim C2: the claim states that every tuple_cat(T1..Tk) call with k >= 1
performs exactly sum(length(Ti)) element constructions.  The code
contradicts it twice: any call with total length at least two is ill-formed
at the get of index 1 during view concatenation or materialization (the
pop_front rebinding), so the instrumentation scenario shape of the spec does
not compile, and a k = 1 call on a named or const tuple is ill-formed
because the unary overload instantiates tuple_size_v on the deduced
reference or const type without remove_cvrf_t.  The only compilable calls,
with total length at most one and for k = 1 only a mutable temporary, do
perform exactly the claimed number of constructions. -/
theorem tuple_cat_count_ill_formed :
    tuple_cat_call_m [(VCat.lval, [(1 : Nat), 2]), (VCat.clval, [3])] = none
    ∧ tuple_cat_call_m [(VCat.lval, [(0 : Nat)])] = none
    ∧ tuple_cat_call_m [(VCat.rval, [(7 : Nat)])] = some ([7], 1)
    ∧ tuple_cat_call_m [(VCat.lval, ([] : List Nat)), (VCat.clval, [4])] =
        some ([4], 1) := by decide

/-- Claim C3: the claim states that get(i,t) on a mutable named tuple yields
a mutable alias for every index i below the length, with writes through it
read back by get(i,t), and a const access on an immutable named tuple.  The
code contradicts it: get(i,t) is ill-formed for every i >= 1 through the
pop_front rebinding of the level type to type_list, so already the concrete
spec scenario get(1,t) on a three-element tuple does not compile.  At the
only compilable index 0 the alias is mutable, the write is read back, and
the four-way category dispatch matches the claim. -/
theorem get_index_one_ill_formed :
    get_m 1 [(1 : Nat), 2, 3] = none
    ∧ get_m 0 [(1 : Nat), 2, 3] = some 1
    ∧ assign_through_get 0 9 [(1 : Nat), 2, 3] = some [9, 2, 3]
    ∧ get_m 0 [(9 : Nat), 2, 3] = some 9
    ∧ (get_access true false).isLvalRef = true
    ∧ (get_access true false).isConst = false
    ∧ (get_access true true).isConst = true := by decide

/-- Claim C5: the claim states that transform(t,f) yields, for every tuple
of length n, an n-tuple whose element i is f(get(i,t)), with side effects in
index order.  The code contradicts it: transform_impl expands get at index 1
for every tuple of length at least two, which is ill-formed through the
pop_front rebinding, so transform compiles only for lengths zero and one,
where the claimed elementwise result (and trivially the evaluation order)
holds. -/
theorem transform_ill_formed_beyond_one :
    transform_m [(1 : Nat), 2] (fun x => x + 1) = none
    ∧ transform_m [(1 : Nat)] (fun x => x + 1) = some [2]
    ∧ transform_m ([] : List Nat) (fun x => x + 1) = some [] := by decide

/-- Claim C6: the claim states that contains(type) equals any(equals(type)),
true exactly when some element of the sequence is the searched type.  The
code contradicts it: the nested predicate of is_same_pred inherits from
is_same<T1,T2>::value, which names the static bool member rather than a
type, so the predicate fails to instantiate and contains_type_v is
ill-formed on every non-empty sequence, here the one-element sequence
holding the searched type itself; the intended any over an is_same_v
predicate yields true there.  Only the empty-sequence case, which never
instantiates the predicate, compiles, and yields false. -/
theorem contains_pred_ill_formed :
    contains_type_v (0 : Nat) [0] = none
    ∧ anyTL (fun t2 => some (is_same_v (0 : Nat) t2)) [0] = some true
    ∧ contains_type_v (0 : Nat) ([] : List Nat) = some false :=
  ⟨rfl, by decide, rfl⟩

/-- Claim C7: every listed failure condition at the public interface is a
build-time rejection, with no runtime error path or sentinel: in the
embedding a build-time rejection is the none value of the corresponding
type-level model.  An out-of-range get is rejected (the conjunct is stated
as an implication because this source rejects even more: every get index of
one or more is also ill-formed, through the pop_front rebinding recorded
under claims C1 and C3); at is rejected exactly out of range; front, back,
pop_front and pop_back are rejected exactly on the empty sequence; and tuple
construction resolves exactly when the argument count equals the element
count. -/
theorem build_time_rejection_spec {α β : Type} (i : Nat) (t L tys : List α)
    (args : List β) :
    (t.length ≤ i → get_m i t = none)
    ∧ (at_tl L i = none ↔ L.length ≤ i)
    ∧ (front_tl L = none ↔ L = [])
    ∧ (back_tl L = none ↔ L = [])
    ∧ (pop_front_tl L = none ↔ L = [])
    ∧ (pop_back_tl L [] = none ↔ L = [])
    ∧ ((tuple_construct tys args).isSome ↔ tys.length = args.length) := by
  refine ⟨fun h => get_impl_m_out_of_range i SeqKind.tupleK t h,
    at_tl_none_iff i L, ?_, back_tl_none_iff L, ?_,
    pop_back_tl_none_iff L, tuple_construct_isSome tys args⟩
  · cases L <;> simp [front_tl]
  · cases L <;> simp [pop_front_tl]

/-- Witness for claim C7: index 5 on a two-element tuple and on a
two-element sequence is rejected. -/
theorem build_time_rejection_spec_witness :
    get_m 5 [(1 : Nat), 2] = none ∧ at_tl [(1 : Nat), 2] 5 = none := by
  have h := build_time_rejection_spec 5 [(1 : Nat), 2] [(1 : Nat), 2]
    [(1 : Nat)] ([] : List Nat)
  exact ⟨h.1 (by decide), h.2.1.mpr (by decide)⟩

/-- Claim C8: the claim states that assigning through get(i,t) leaves every
other element j unchanged, as observed by get(j,t) before and after.  The
code contradicts it: the write compiles only at i = 0 (the only well-formed
get alias) and the frame-check read get(j,t) at any j different from 0 never
compiles, through the pop_front rebinding, so the claimed observation has no
compilable instance; the stored values other than position i are indeed left
unchanged by the only compilable write, as the model state shows, but no get
in this source can read them back. -/
theorem frame_read_ill_formed :
    assign_through_get 0 7 [(1 : Nat), 2] = some [7, 2]
    ∧ get_m 1 [(7 : Nat), 2] = none
    ∧ assign_through_get 1 9 [(1 : Nat), 2] = none := by decide

/-- Claim C9: push_back round-trips with back and pop_back: the back of
push_back(L,T) is T, the pop_back of push_back(L,T) is L, and for a
non-empty sequence, pushing the back of L onto the pop_back of L restores
L. -/
theorem push_back_round_trip {α : Type} (L : List α) (t : α) :
    back_tl (push_back_tl L t) = some t
    ∧ pop_back_tl (push_back_tl L t) [] = some L
    ∧ ∀ (b : α) (L2 : List α), back_tl L = some b →
        pop_back_tl L [] = some L2 → push_back_tl L2 b = L := by
  refine ⟨?_, ?_, ?_⟩
  · have h1 : push_back_tl L t ≠ [] := by simp [push_back_tl]
    rw [back_tl_getLast (push_back_tl L t) h1]
    simp [push_back_tl]
  · rw [pop_back_tl_eq (push_back_tl L t) (by simp [push_back_tl]) []]
    simp [push_back_tl]
  · intro b L2 hb hp
    have hL : L ≠ [] := by
      intro e
      rw [e] at hb
      simp [back_tl] at hb
    rw [back_tl_getLast L hL] at hb
    rw [pop_back_tl_eq L hL []] at hp
    have hb2 : b = L.getLast hL := by simpa using hb.symm
    have hp2 : L2 = L.dropLast := by simpa using hp.symm
    rw [push_back_tl, hb2, hp2]
    exact List.dropLast_append_getLast hL

/-- Witness for claim C9 at L = the sequence (1, 2) and T = 3, with the
non-empty round trip taken at (1, 2) itself. -/
theorem push_back_round_trip_witness :
    back_tl (push_back_tl [1, 2] 3) = some 3
    ∧ pop_back_tl (push_back_tl [1, 2] 3) [] = some [1, 2]
    ∧ push_back_tl [1] 2 = [1, 2] :=
  ⟨(push_back_round_trip [1, 2] 3).1,
   (push_back_round_trip [1, 2] 3).2.1,
   (push_back_round_trip [1, 2] 3).2.2 2 [1] rfl rfl⟩

/-- Claim C10: for every element pack and every in-range index, the
tuple-side element-type lookup tuple_element, recursing directly on the
tuple, agrees with the sequence-side lookup at, recursing through front and
pop_front. -/
theorem tuple_element_agrees_at {α : Type} :
    ∀ (i : Nat) (L : List α), i < L.length → tuple_element i L = at_tl L i
  | 0, _ :: _, _ => rfl
  | i + 1, x :: xs, h => by
    have h1 : at_tl (x :: xs) (i + 1) = at_tl xs i := rfl
    have h2 : tuple_element (i + 1) (x :: xs) = tuple_element i xs := rfl
    rw [h1, h2]
    exact tuple_element_agrees_at i xs (by simpa using h)

/-- Witness for claim C10 at the pack (10, 20, 30) and index 1. -/
theorem tuple_element_agrees_at_witness :
    tuple_element 1 [10, 20, 30] = at_tl [10, 20, 30] 1 :=
  tuple_element_agrees_at 1 [10, 20, 30] (by decide)

end Metakit
